import Mathlib

/-!
# Verification of the Tailor sidecar kernel

A shallow embedding of the kernel of the Tailor sidecar daemon
(`src/sidecar`): the priority event bus (`event_bus.py`), the command
registry (`vault_brain.py`), the plugin-config merge (`vault_brain.py,
_load_plugins`), the staged chat pipeline (`pipeline/nodes.py`,
`pipeline/default.py`) and the `chat.send` orchestration including the
streaming fan-out (`vault_brain.py`).

Python dynamic values are modelled by `PyVal`; Python dictionaries by
association lists with unique keys (the shape `json.loads` guarantees);
exceptions by `Except` or explicit error fields; the emission of
WebSocket events and the scheduling of internal events by explicit
traces returned alongside each result.
-/

namespace Tailor

/-- A Python / JSON value, as far as the kernel inspects one. -/
inductive PyVal : Type where
  | none : PyVal
  | bool (b : Bool) : PyVal
  | int (n : Int) : PyVal
  | str (s : String) : PyVal
  | list (xs : List PyVal) : PyVal
  | dict (kvs : List (String × PyVal)) : PyVal

/-- A Python dictionary with string keys (the shape of every config and
kwargs object the kernel handles). -/
abbrev PyDict := List (String × PyVal)

/-- Python truthiness (`if not x`) for the values the kernel tests. -/
def PyVal.truthy : PyVal → Bool
  | .none => false
  | .bool b => b
  | .int n => n != 0
  | .str s => s != ""
  | .list xs => !xs.isEmpty
  | .dict kvs => !kvs.isEmpty

/-- `d.get(k)` / `d[k]`: the value at the first matching key. -/
def dictGet (d : PyDict) (k : String) : Option PyVal :=
  match d with
  | [] => Option.none
  | kv :: rest => if kv.1 = k then some kv.2 else dictGet rest k

/-- `d[k] = v` on a unique-key dictionary: replace the binding in place
if the key exists, else append it at the end (Python dicts preserve
insertion order). -/
def dictSet (d : PyDict) (k : String) (v : PyVal) : PyDict :=
  match d with
  | [] => [(k, v)]
  | kv :: rest => if kv.1 = k then (k, v) :: rest else kv :: dictSet rest k v

/-- `d1.update(d2)`: set every binding of `d2` in `d1`, in order. -/
def dictUpdate (d1 d2 : PyDict) : PyDict :=
  d2.foldl (fun acc kv => dictSet acc kv.1 kv.2) d1

/-- The overlay described by the spec, stated key-by-key: the workspace
override wins where it binds a key, the plugin-local default applies
otherwise.  (Spec wording, to be compared with the source computation
`effectivePluginConfig` below.) -/
def specOverlayGet (defaults overrides : PyDict) (k : String) : Option PyVal :=
  match dictGet overrides k with
  | some v => some v
  | Option.none => dictGet defaults k

theorem dictGet_dictSet_eq (d : PyDict) (k : String) (v : PyVal) :
    dictGet (dictSet d k v) k = some v := by
  induction d with
  | nil => simp [dictGet, dictSet]
  | cons kv rest ih =>
    by_cases h : kv.1 = k
    · simp [dictGet, dictSet, h]
    · simp [dictGet, dictSet, h, ih]

theorem dictGet_dictSet_ne (d : PyDict) (k k2 : String) (v : PyVal)
    (hne : k2 ≠ k) : dictGet (dictSet d k v) k2 = dictGet d k2 := by
  induction d with
  | nil =>
    simp only [dictSet, dictGet]
    rw [if_neg (fun hh : k = k2 => hne hh.symm)]
  | cons kv rest ih =>
    simp only [dictSet]
    by_cases h : kv.1 = k
    · rw [if_pos h]
      simp only [dictGet]
      rw [if_neg (fun hh : k = k2 => hne hh.symm),
        if_neg (fun hh : kv.1 = k2 => hne (hh.symm.trans h))]
    · rw [if_neg h]
      simp only [dictGet]
      by_cases h2 : kv.1 = k2
      · rw [if_pos h2, if_pos h2]
      · rw [if_neg h2, if_neg h2, ih]

/-- A dictionary without the key yields no value for it. -/
theorem dictGet_eq_none_of_notMem (d : PyDict) (k : String)
    (h : k ∉ d.map Prod.fst) : dictGet d k = Option.none := by
  induction d with
  | nil => rfl
  | cons kv rest ih =>
    simp only [List.map_cons, List.mem_cons, not_or] at h
    simp only [dictGet]
    rw [if_neg (fun hh => h.1 hh.symm)]
    exact ih h.2

/-- If a key has no binding in `d2`, `d1.update(d2)` keeps the `d1`
value at that key. -/
theorem dictGet_dictUpdate_of_none (d1 d2 : PyDict) (k : String)
    (h : dictGet d2 k = Option.none) :
    dictGet (dictUpdate d1 d2) k = dictGet d1 k := by
  induction d2 generalizing d1 with
  | nil => rfl
  | cons kv rest ih =>
    simp only [dictGet] at h
    by_cases hk : kv.1 = k
    · rw [if_pos hk] at h; exact absurd h (by simp)
    · rw [if_neg hk] at h
      show dictGet (dictUpdate (dictSet d1 kv.1 kv.2) rest) k = dictGet d1 k
      rw [ih (dictSet d1 kv.1 kv.2) h,
        dictGet_dictSet_ne d1 kv.1 k kv.2 (fun hh => hk hh.symm)]

/-- On a unique-key `d2`, `d1.update(d2)` realizes exactly the spec's
key-by-key overlay: the `d2` value wherever `d2` binds the key, the
`d1` value elsewhere. -/
theorem dictGet_dictUpdate (d1 d2 : PyDict) (k : String)
    (hnd : (d2.map Prod.fst).Nodup) :
    dictGet (dictUpdate d1 d2) k = specOverlayGet d1 d2 k := by
  induction d2 generalizing d1 with
  | nil => rfl
  | cons kv rest ih =>
    simp only [List.map_cons, List.nodup_cons] at hnd
    obtain ⟨hnotin, hndrest⟩ := hnd
    show dictGet (dictUpdate (dictSet d1 kv.1 kv.2) rest) k = _
    rw [ih _ hndrest]
    by_cases hk : kv.1 = k
    · subst hk
      have hrest : dictGet rest kv.1 = Option.none :=
        dictGet_eq_none_of_notMem rest kv.1 hnotin
      unfold specOverlayGet
      rw [hrest]
      show dictGet (dictSet d1 kv.1 kv.2) kv.1 = _
      rw [dictGet_dictSet_eq]
      simp [dictGet]
    · unfold specOverlayGet
      simp only [dictGet, if_neg hk]
      cases hr : dictGet rest k with
      | none => exact dictGet_dictSet_ne d1 kv.1 k kv.2 (fun hh => hk hh.symm)
      | some v => rfl

/-! ## Plugin config merge (`VaultBrain._load_plugins`, steps 1–4)

For each discovered plugin directory, `_load_plugins` computes:
  1. `defaults`  — parsed `settings.json` (empty on absence or parse error);
  2. `overrides` — `config.get("plugins", {}).get(plugin_name, {})`,
     replaced by `{}` when the stored value is not a dict;
  3. `final_config = defaults.copy(); final_config.update(overrides)`;
  4. `is_enabled = final_config.get("enabled", False)`; the plugin is
     skipped (never instantiated) unless `is_enabled` is truthy.
-/

/-- Step 2 of `_load_plugins`: the per-plugin override object from the
workspace config's `plugins` section; a missing or non-dict entry is
treated as `{}`. -/
def pluginOverrides (vaultPlugins : PyDict) (name : String) : PyDict :=
  match dictGet vaultPlugins name with
  | some (.dict d) => d
  | _ => []

/-- Step 3 of `_load_plugins`: the effective plugin config,
`defaults.copy()` updated with the workspace overrides. -/
def effectivePluginConfig (defaults : PyDict) (vaultPlugins : PyDict)
    (name : String) : PyDict :=
  dictUpdate defaults (pluginOverrides vaultPlugins name)

/-- Step 4 of `_load_plugins`: the enablement gate
`final_config.get("enabled", False)` under Python truthiness; only a
plugin passing it reaches instantiation. -/
def pluginEnabled (finalConfig : PyDict) : Bool :=
  ((dictGet finalConfig "enabled").getD (.bool false)).truthy

/-! ## Event bus (`event_bus.py`)

`EventBus._subscribers` maps an event name to a list of
`(priority, handler)` tuples.  `subscribe` appends the new tuple and
re-sorts the list with Python's stable `list.sort(key=priority,
reverse=True)`.  `publish` materializes the handler list up front
(`handlers = [h for _, h in priority_handlers]`) and then runs each
handler through `safe_exec`, which catches and logs any exception.

A handler is modelled by what the bus can observe of it: an identity
`hid`, the subscriptions it performs on the bus when invoked
(`newSubs`, modelling a handler that calls `subscribe` during
dispatch), and `failMsg`, the exception it raises after that (`none`
when it returns normally). -/

inductive Handler : Type where
  | mk (hid : Nat) (newSubs : List (String × Int × Handler))
      (failMsg : Option String)

def Handler.hid : Handler → Nat
  | .mk i _ _ => i

def Handler.newSubs : Handler → List (String × Int × Handler)
  | .mk _ s _ => s

def Handler.failMsg : Handler → Option String
  | .mk _ _ f => f

/-- `EventBus._subscribers`: event name → ordered `(priority, handler)`
list (a `defaultdict(list)`). -/
abbrev BusState := List (String × List (Int × Handler))

/-- `self._subscribers.get(event, [])` (also the `defaultdict` read). -/
def getSubs (st : BusState) (e : String) : List (Int × Handler) :=
  match st with
  | [] => []
  | (e2, l) :: rest => if e2 = e then l else getSubs rest e

/-- Store the subscriber list of one event. -/
def setSubs (st : BusState) (e : String) (l : List (Int × Handler)) :
    BusState :=
  match st with
  | [] => [(e, l)]
  | (e2, l2) :: rest =>
    if e2 = e then (e, l) :: rest else (e2, l2) :: setSubs rest e l

/-- One step of a stable descending-by-priority insertion: the new
element goes after every element of priority ≥ its own. -/
def insertDesc (x : Int × Handler) :
    List (Int × Handler) → List (Int × Handler)
  | [] => [x]
  | y :: ys => if x.1 ≤ y.1 then y :: insertDesc x ys else x :: y :: ys

/-- Python's stable `sort(key=lambda t: t[0], reverse=True)`, realized
as a left-fold insertion sort.  Being a stable sort characterizes it
uniquely; the permutation / sortedness / stability lemmas below
establish that characterization. -/
def pySortDesc (l : List (Int × Handler)) : List (Int × Handler) :=
  l.foldl (fun acc x => insertDesc x acc) []

/-- `EventBus.subscribe(event, handler, priority)`: append the
`(priority, handler)` tuple and re-sort (stable, priority descending). -/
def subscribe (st : BusState) (e : String) (p : Int) (h : Handler) :
    BusState :=
  setSubs st e (pySortDesc (getSubs st e ++ [(p, h)]))

/-- The subscriptions a running handler performs on the bus
(each a `subscribe` call), in order. -/
def applyHandlerSubs (st : BusState) (h : Handler) : BusState :=
  h.newSubs.foldl (fun s eph => subscribe s eph.1 eph.2.1 eph.2.2) st

/-- Outcome of a `publish` call: the bus state after dispatch, the
handlers invoked (in invocation order), and the log entries produced by
`safe_exec` for handlers that raised. -/
structure PublishResult where
  state : BusState
  invoked : List Nat
  logged : List String

/-- `await h(**kwargs)`: the handler performs its bus effects and then
either returns or raises.  A raise is an `Except.error`; the effects
performed before the raise persist, so the error carries the mutated
state. -/
def handlerRun (st : BusState) (h : Handler) :
    Except (String × BusState) BusState :=
  let st1 := applyHandlerSubs st h
  match h.failMsg with
  | some m => .error (m, st1)
  | Option.none => .ok st1

/-- `safe_exec`: `try: await h(**kwargs) except Exception: logger.exception(...)`.
The exception is caught and turned into a log entry; nothing
propagates to the publisher. -/
def safeExec (st : BusState) (h : Handler) : BusState × List String :=
  match handlerRun st h with
  | .ok st1 => (st1, [])
  | .error (m, st1) => (st1, [m])

/-- The sequential dispatch loop `for h in handlers: await safe_exec(h)`:
the loop always continues past a failed handler. -/
def runHandlersSeq (st : BusState) : List Handler → PublishResult
  | [] => ⟨st, [], []⟩
  | h :: rest =>
    let s := safeExec st h
    let r := runHandlersSeq s.1 rest
    ⟨r.state, h.hid :: r.invoked, s.2 ++ r.logged⟩

/-- `EventBus.publish(event, sequential=True, ...)`: the handler list is
extracted from the subscriber tuples before the loop starts. -/
def publishSeq (st : BusState) (e : String) : PublishResult :=
  runHandlersSeq st ((getSubs st e).map (·.2))

/-- What parallel dispatch determines before any handler awaits:
`asyncio.gather(*(safe_exec(h) for h in handlers))` materializes the
argument tuple from the pre-extracted `handlers` list, so the invoked
set and the per-handler failure capture are those of the snapshot (the
interleaving of concurrent handler effects is not modelled). -/
structure ParallelResult where
  invoked : List Nat
  logged : List String

/-- `EventBus.publish(event, sequential=False, ...)`. -/
def publishPar (st : BusState) (e : String) : ParallelResult :=
  let handlers := (getSubs st e).map (·.2)
  ⟨handlers.map Handler.hid, handlers.filterMap Handler.failMsg⟩

/-- The ordering the spec demands of a subscriber list: priorities
descending, and among equal priorities the earlier-subscribed handler
(smaller `hid`) first. -/
def lexkey (a b : Int × Handler) : Prop :=
  b.1 < a.1 ∨ (a.1 = b.1 ∧ a.2.hid < b.2.hid)

/-- Register a sequence of `(event, priority)` subscriptions, tagging
each handler with its (globally increasing) subscription index. -/
def buildFrom (st : BusState) (i : Nat) :
    List (String × Int) → BusState
  | [] => st
  | (e, p) :: rest =>
    buildFrom (subscribe st e p (Handler.mk i [] Option.none)) (i + 1) rest

/-- A fresh bus after a sequence of subscriptions. -/
def buildBus (subs : List (String × Int)) : BusState := buildFrom [] 0 subs

/-- The subscriptions of one event, in subscription order, with their
subscription indices (counting from `i`). -/
def taggedFor (e : String) (i : Nat) :
    List (String × Int) → List (Int × Handler)
  | [] => []
  | (e2, p) :: rest =>
    (if e2 = e then [(p, Handler.mk i [] Option.none)] else [])
      ++ taggedFor e (i + 1) rest

/-! Lemmas about the bus structures. -/

theorem getSubs_setSubs_eq (st : BusState) (e : String)
    (l : List (Int × Handler)) : getSubs (setSubs st e l) e = l := by
  induction st with
  | nil => simp [getSubs, setSubs]
  | cons kv rest ih =>
    obtain ⟨e2, l2⟩ := kv
    by_cases h : e2 = e
    · simp [getSubs, setSubs, h]
    · simp [getSubs, setSubs, h, ih]

theorem getSubs_setSubs_ne (st : BusState) (e e2 : String)
    (l : List (Int × Handler)) (hne : e2 ≠ e) :
    getSubs (setSubs st e l) e2 = getSubs st e2 := by
  induction st with
  | nil =>
    show getSubs [(e, l)] e2 = getSubs [] e2
    simp only [getSubs]
    rw [if_neg (fun h : e = e2 => hne h.symm)]
  | cons kv rest ih =>
    obtain ⟨e3, l3⟩ := kv
    by_cases h : e3 = e
    · simp only [setSubs, if_pos h, getSubs]
      rw [if_neg (fun hh : e = e2 => hne hh.symm),
        if_neg (fun hh : e3 = e2 => hne (hh.symm.trans h))]
    · simp only [setSubs, if_neg h, getSubs]
      by_cases h2 : e3 = e2
      · rw [if_pos h2, if_pos h2]
      · rw [if_neg h2, if_neg h2, ih]

theorem insertDesc_perm (x : Int × Handler) (l : List (Int × Handler)) :
    List.Perm (insertDesc x l) (x :: l) := by
  induction l with
  | nil => simp [insertDesc]
  | cons y ys ih =>
    by_cases h : x.1 ≤ y.1
    · simp only [insertDesc, if_pos h]
      exact (ih.cons y).trans (List.Perm.swap x y ys)
    · simp only [insertDesc, if_neg h]
      exact List.Perm.refl _

theorem foldl_insertDesc_perm (l : List (Int × Handler))
    (acc : List (Int × Handler)) :
    List.Perm (l.foldl (fun a x => insertDesc x a) acc) (acc ++ l) := by
  induction l generalizing acc with
  | nil => simp
  | cons x xs ih =>
    simp only [List.foldl_cons]
    refine (ih (insertDesc x acc)).trans ?_
    have h1 : List.Perm (insertDesc x acc ++ xs) ((x :: acc) ++ xs) :=
      (insertDesc_perm x acc).append_right xs
    refine h1.trans ?_
    simp only [List.cons_append]
    exact (List.perm_middle).symm

/-- `pySortDesc` permutes its input. -/
theorem pySortDesc_perm (l : List (Int × Handler)) :
    List.Perm (pySortDesc l) l := by
  simpa using foldl_insertDesc_perm l []

/-- Inserting below every element of a list puts the element at its
end. -/
theorem insertDesc_eq_append (x : Int × Handler)
    (l : List (Int × Handler)) (h : ∀ y ∈ l, x.1 ≤ y.1) :
    insertDesc x l = l ++ [x] := by
  induction l with
  | nil => rfl
  | cons y ys ih =>
    simp only [insertDesc, if_pos (h y (List.mem_cons_self y ys))]
    rw [ih (fun z hz => h z (List.mem_cons_of_mem y hz))]
    rfl

/-- `pySortDesc` leaves a descending-sorted list unchanged. -/
theorem pySortDesc_of_sorted (l : List (Int × Handler))
    (hs : List.Pairwise (fun a b : Int × Handler => b.1 ≤ a.1) l) :
    pySortDesc l = l := by
  suffices h : ∀ (acc : List (Int × Handler)),
      List.Pairwise (fun a b : Int × Handler => b.1 ≤ a.1) (acc ++ l) →
      l.foldl (fun a x => insertDesc x a) acc = acc ++ l by
    simpa using h [] (by simpa using hs)
  clear hs
  induction l with
  | nil => intro acc _; simp
  | cons x xs ih =>
    intro acc hacc
    simp only [List.foldl_cons]
    have hmem : ∀ y ∈ acc, x.1 ≤ y.1 := by
      intro y hy
      have := (List.pairwise_append.mp hacc).2.2 y hy x (List.mem_cons_self x xs)
      exact this
    rw [insertDesc_eq_append x acc hmem]
    have : acc ++ x :: xs = (acc ++ [x]) ++ xs := by simp
    rw [this] at hacc
    rw [ih (acc ++ [x]) hacc]
    simp

/-- `lexkey` implies descending priorities. -/
theorem lexkey_le {a b : Int × Handler} (h : lexkey a b) : b.1 ≤ a.1 := by
  rcases h with h | ⟨h, _⟩
  · exact le_of_lt h
  · exact le_of_eq h.symm

/-- Stable insertion preserves the canonical order when the inserted
handler carries a fresh (largest) subscription index. -/
theorem insertDesc_pairwise (p : Int) (i : Nat)
    (l : List (Int × Handler))
    (hpw : List.Pairwise lexkey l) (hlt : ∀ y ∈ l, y.2.hid < i) :
    List.Pairwise lexkey (insertDesc (p, Handler.mk i [] Option.none) l) := by
  induction l with
  | nil => simp [insertDesc]
  | cons y ys ih =>
    rcases List.pairwise_cons.mp hpw with ⟨hy, hys⟩
    by_cases h : p ≤ y.1
    · simp only [insertDesc, if_pos h]
      refine List.pairwise_cons.mpr ⟨?_, ih hys
        (fun z hz => hlt z (List.mem_cons_of_mem y hz))⟩
      intro z hz
      have hz2 := (insertDesc_perm (p, Handler.mk i [] Option.none) ys).mem_iff.mp hz
      rcases List.mem_cons.mp hz2 with rfl | hz3
      · rcases lt_or_eq_of_le h with hlt2 | heq
        · exact Or.inl hlt2
        · exact Or.inr ⟨heq.symm, hlt y (List.mem_cons_self y ys)⟩
      · exact hy z hz3
    · simp only [insertDesc, if_neg h]
      push_neg at h
      refine List.pairwise_cons.mpr ⟨?_, hpw⟩
      intro z hz
      rcases List.mem_cons.mp hz with rfl | hz2
      · exact Or.inl h
      · exact Or.inl (lt_of_le_of_lt (lexkey_le (hy z hz2)) h)

theorem insertDesc_hid_lt (p : Int) (i : Nat)
    (l : List (Int × Handler)) (hlt : ∀ y ∈ l, y.2.hid < i) :
    ∀ y ∈ insertDesc (p, Handler.mk i [] Option.none) l, y.2.hid < i + 1 := by
  intro y hy
  have hmem := (insertDesc_perm (p, Handler.mk i [] Option.none) l).mem_iff.mp hy
  rcases List.mem_cons.mp hmem with rfl | h2
  · simp [Handler.hid]
  · exact Nat.lt_succ_of_lt (hlt y h2)

/-- On a canonically ordered subscriber list, append-then-stable-sort is
exactly one stable insertion. -/
theorem getSubs_subscribe_eq (st : BusState) (e : String) (p : Int)
    (h : Handler) (hpw : List.Pairwise lexkey (getSubs st e)) :
    getSubs (subscribe st e p h) e = insertDesc (p, h) (getSubs st e) := by
  unfold subscribe
  rw [getSubs_setSubs_eq]
  have happ : pySortDesc (getSubs st e ++ [(p, h)])
      = insertDesc (p, h) (pySortDesc (getSubs st e)) := by
    unfold pySortDesc
    rw [List.foldl_append]
    rfl
  rw [happ, pySortDesc_of_sorted _ (hpw.imp (fun hab => lexkey_le hab))]

theorem getSubs_subscribe_ne (st : BusState) (e e2 : String) (p : Int)
    (h : Handler) (hne : e2 ≠ e) :
    getSubs (subscribe st e p h) e2 = getSubs st e2 := by
  unfold subscribe
  exact getSubs_setSubs_ne st e e2 _ hne

/-- The bus invariant: every subscriber list is in canonical order
(priority descending, subscription index ascending among equals) and
all subscription indices are below the next fresh index. -/
def canonical (st : BusState) (i : Nat) : Prop :=
  ∀ e, List.Pairwise lexkey (getSubs st e) ∧ ∀ x ∈ getSubs st e, x.2.hid < i

theorem buildFrom_spec (subs : List (String × Int)) (st : BusState)
    (i : Nat) (hc : canonical st i) :
    canonical (buildFrom st i subs) (i + subs.length)
    ∧ ∀ e, List.Perm (getSubs (buildFrom st i subs) e)
        (getSubs st e ++ taggedFor e i subs) := by
  induction subs generalizing st i with
  | nil =>
    refine ⟨by simpa [buildFrom] using hc, ?_⟩
    intro e
    simp [buildFrom, taggedFor]
  | cons ep rest ih =>
    obtain ⟨e2, p⟩ := ep
    have hc2 : canonical (subscribe st e2 p (Handler.mk i [] Option.none))
        (i + 1) := by
      intro e
      by_cases he : e = e2
      · subst he
        rw [getSubs_subscribe_eq st e p (Handler.mk i [] Option.none) (hc e).1]
        exact ⟨insertDesc_pairwise p i _ (hc e).1 (hc e).2,
               insertDesc_hid_lt p i _ (hc e).2⟩
      · rw [getSubs_subscribe_ne st e2 e p (Handler.mk i [] Option.none) he]
        exact ⟨(hc e).1, fun x hx => Nat.lt_succ_of_lt ((hc e).2 x hx)⟩
    obtain ⟨hcan, hperm⟩ := ih (subscribe st e2 p (Handler.mk i [] Option.none))
      (i + 1) hc2
    constructor
    · show canonical _ (i + (rest.length + 1))
      have : i + (rest.length + 1) = (i + 1) + rest.length := by omega
      rw [this]
      exact hcan
    · intro e
      show List.Perm (getSubs (buildFrom _ (i + 1) rest) e) _
      refine (hperm e).trans ?_
      by_cases he : e = e2
      · subst he
        rw [getSubs_subscribe_eq st e p (Handler.mk i [] Option.none) (hc e).1]
        simp only [taggedFor, if_pos rfl]
        have h1 : List.Perm
            (insertDesc (p, Handler.mk i [] Option.none) (getSubs st e))
            ((p, Handler.mk i [] Option.none) :: getSubs st e) :=
          insertDesc_perm _ _
        refine (h1.append_right (taggedFor e (i + 1) rest)).trans ?_
        simp only [List.cons_append, List.singleton_append]
        exact (List.perm_middle).symm
      · rw [getSubs_subscribe_ne st e2 e p (Handler.mk i [] Option.none) he]
        simp only [taggedFor, if_neg (fun hh : e2 = e => he hh.symm)]
        simp

theorem runHandlersSeq_invoked (st : BusState) (hs : List Handler) :
    (runHandlersSeq st hs).invoked = hs.map Handler.hid := by
  induction hs generalizing st with
  | nil => rfl
  | cons h rest ih => simp [runHandlersSeq, ih]

theorem runHandlersSeq_logged (st : BusState) (hs : List Handler) :
    (runHandlersSeq st hs).logged = hs.filterMap Handler.failMsg := by
  induction hs generalizing st with
  | nil => rfl
  | cons h rest ih =>
    simp only [runHandlersSeq, ih, List.filterMap_cons]
    cases hf : h.failMsg <;>
      simp [safeExec, handlerRun, hf]

/-- C5: after any sequence of subscriptions, every event's subscriber
list on the bus is a permutation of that event's subscriptions that is
sorted by priority descending with stable order among equal priorities
(subscription order, i.e. ascending subscription index, is preserved),
and sequential publish invokes the handlers one at a time in exactly
that list order. -/
theorem subscriber_list_sorted_stable (subs : List (String × Int))
    (e : String) :
    List.Perm (getSubs (buildBus subs) e) (taggedFor e 0 subs)
    ∧ List.Pairwise lexkey (getSubs (buildBus subs) e)
    ∧ (publishSeq (buildBus subs) e).invoked
        = (getSubs (buildBus subs) e).map (fun x => x.2.hid) := by
  have hc0 : canonical [] 0 := by
    intro e2
    exact ⟨List.Pairwise.nil, by simp [getSubs]⟩
  obtain ⟨hcan, hperm⟩ := buildFrom_spec subs [] 0 hc0
  refine ⟨?_, (hcan e).1, ?_⟩
  · have := hperm e
    simpa [buildBus, getSubs] using this
  · unfold publishSeq
    rw [runHandlersSeq_invoked]
    simp [List.map_map, Function.comp]

/-- C6: for sequential and parallel publish alike, the set of invoked
handlers is exactly the subscriber list of the event at the instant
publish begins (the handler list is materialized before the dispatch
loop), even though the invoked handlers may themselves subscribe:
a subscription added during dispatch is not invoked in that round. -/
theorem publish_dispatch_snapshot (st : BusState) (e : String) :
    (publishSeq st e).invoked = (getSubs st e).map (fun x => x.2.hid)
    ∧ (publishPar st e).invoked = (getSubs st e).map (fun x => x.2.hid) := by
  constructor
  · unfold publishSeq
    rw [runHandlersSeq_invoked]
    simp [List.map_map, Function.comp]
  · unfold publishPar
    simp [List.map_map, Function.comp]

/-- C7: publish never raises to the publisher: every handler exception
is caught and logged (one log entry per failing handler, in order), the
remaining handlers of a sequential chain all still run, parallel
siblings are all executed regardless of failures, and publish returns
only after every handler has terminated. -/
theorem publish_error_isolation (st : BusState) (e : String) :
    (publishSeq st e).invoked = (getSubs st e).map (fun x => x.2.hid)
    ∧ (publishSeq st e).logged
        = ((getSubs st e).map (·.2)).filterMap Handler.failMsg
    ∧ (publishPar st e).invoked = (getSubs st e).map (fun x => x.2.hid)
    ∧ (publishPar st e).logged
        = ((getSubs st e).map (·.2)).filterMap Handler.failMsg := by
  refine ⟨?_, ?_, ?_, rfl⟩
  · unfold publishSeq
    rw [runHandlersSeq_invoked]
    simp [List.map_map, Function.comp]
  · unfold publishSeq
    rw [runHandlersSeq_logged]
  · unfold publishPar
    simp [List.map_map, Function.comp]

/-- C9: for every discovered plugin, the effective config equals the
plugin-local defaults (empty when `settings.json` is absent or
malformed) overlaid key-by-key at the top level by the workspace
config's per-plugin override object, the workspace winning; a non-dict
override is treated as absent; and the plugin reaches instantiation if
and only if the merged `enabled` key is `true` (with `false` the
default when the key is absent from both sides).  The `enabled` value
is assumed boolean-or-absent, the only shapes the config documents
use. -/
theorem plugin_config_merge (defaults vaultPlugins : PyDict) (name : String)
    (hnd : ((pluginOverrides vaultPlugins name).map Prod.fst).Nodup)
    (hen : dictGet (effectivePluginConfig defaults vaultPlugins name)
        "enabled" = Option.none
      ∨ ∃ b, dictGet (effectivePluginConfig defaults vaultPlugins name)
        "enabled" = some (.bool b)) :
    (∀ k, dictGet (effectivePluginConfig defaults vaultPlugins name) k
        = specOverlayGet defaults (pluginOverrides vaultPlugins name) k)
    ∧ (∀ v, dictGet vaultPlugins name = some v → (∀ d, v ≠ .dict d) →
        ∀ k, dictGet (effectivePluginConfig defaults vaultPlugins name) k
          = dictGet defaults k)
    ∧ (pluginEnabled (effectivePluginConfig defaults vaultPlugins name) = true
        ↔ dictGet (effectivePluginConfig defaults vaultPlugins name)
            "enabled" = some (.bool true)) := by
  refine ⟨fun k => dictGet_dictUpdate defaults _ k hnd, ?_, ?_⟩
  · intro v hv hnotdict k
    have hov : pluginOverrides vaultPlugins name = [] := by
      unfold pluginOverrides
      rw [hv]
      cases v with
      | dict d => exact absurd rfl (hnotdict d)
      | none => rfl
      | bool b => rfl
      | int n => rfl
      | str s => rfl
      | list xs => rfl
    unfold effectivePluginConfig
    rw [hov]
    rfl
  · unfold pluginEnabled
    rcases hen with hen | ⟨b, hen⟩
    · rw [hen]
      simp [PyVal.truthy, Option.getD]
    · rw [hen]
      simp [PyVal.truthy, Option.getD]

/-- Witness for C9 at concrete configs: local defaults enable the
`memory` plugin, the workspace override disables it; the merged config
carries the workspace value and the gate refuses instantiation. -/
theorem plugin_config_merge_witness :
    ((((pluginOverrides
        [("memory", PyVal.dict [("enabled", PyVal.bool false)])]
        "memory")).map Prod.fst).Nodup)
    ∧ (dictGet (effectivePluginConfig
          [("enabled", PyVal.bool true), ("depth", PyVal.int 3)]
          [("memory", PyVal.dict [("enabled", PyVal.bool false)])]
          "memory") "enabled" = Option.none
       ∨ ∃ b, dictGet (effectivePluginConfig
          [("enabled", PyVal.bool true), ("depth", PyVal.int 3)]
          [("memory", PyVal.dict [("enabled", PyVal.bool false)])]
          "memory") "enabled" = some (.bool b))
    ∧ ((∀ k, dictGet (effectivePluginConfig
          [("enabled", PyVal.bool true), ("depth", PyVal.int 3)]
          [("memory", PyVal.dict [("enabled", PyVal.bool false)])]
          "memory") k
        = specOverlayGet [("enabled", PyVal.bool true), ("depth", PyVal.int 3)]
            (pluginOverrides
              [("memory", PyVal.dict [("enabled", PyVal.bool false)])]
              "memory") k)
      ∧ (∀ v, dictGet
            [("memory", PyVal.dict [("enabled", PyVal.bool false)])]
            "memory" = some v → (∀ d, v ≠ .dict d) →
          ∀ k, dictGet (effectivePluginConfig
            [("enabled", PyVal.bool true), ("depth", PyVal.int 3)]
            [("memory", PyVal.dict [("enabled", PyVal.bool false)])]
            "memory") k
            = dictGet [("enabled", PyVal.bool true), ("depth", PyVal.int 3)] k)
      ∧ (pluginEnabled (effectivePluginConfig
            [("enabled", PyVal.bool true), ("depth", PyVal.int 3)]
            [("memory", PyVal.dict [("enabled", PyVal.bool false)])]
            "memory") = true
          ↔ dictGet (effectivePluginConfig
            [("enabled", PyVal.bool true), ("depth", PyVal.int 3)]
            [("memory", PyVal.dict [("enabled", PyVal.bool false)])]
            "memory") "enabled" = some (.bool true))) :=
  ⟨by decide, Or.inr ⟨false, rfl⟩,
    plugin_config_merge
      [("enabled", PyVal.bool true), ("depth", PyVal.int 3)]
      [("memory", PyVal.dict [("enabled", PyVal.bool false)])]
      "memory" (by decide) (Or.inr ⟨false, rfl⟩)⟩

/-! ## Command registry (`VaultBrain.execute_command`)

`self.commands` maps a command id to `{"handler": ..., "plugin": ...}`.
`execute_command` looks the id up, raises `CommandNotFoundError` with
the id and the list of all registered ids when absent, awaits the
handler (wrapping a handler exception into `CommandExecutionError`),
and on success schedules (`asyncio.create_task`, fire and forget) a
`COMMAND_EXECUTED` publish with keyword arguments
`command_id=command_id, args=kwargs, result_status="success"`. -/

/-- Modelled from the spec: the `exceptions` module itself is not under
`src/`; per the spec and the call sites in `vault_brain.py`
(`CommandNotFoundError(command_id, all_commands)` and
`CommandExecutionError(command_id, e)`), `CommandNotFound` carries the
id and the list of known ids, and `CommandExecutionError` preserves the
original error. -/
inductive CmdError : Type where
  | commandNotFound (command_id : String) (known : List String)
  | commandExecutionError (command_id : String) (original : String)

/-- A registry record: the async handler (its returning or raising
modelled by `Except`) and the owning plugin name. -/
structure CommandEntry where
  run : PyDict → Except String PyVal
  plugin : Option String

/-- `self.commands`, in registration order. -/
abbrev CommandRegistry := List (String × CommandEntry)

def registryLookup (reg : CommandRegistry) (cid : String) :
    Option CommandEntry :=
  match reg with
  | [] => Option.none
  | kv :: rest => if kv.1 = cid then some kv.2 else registryLookup rest cid

/-- A `publish` scheduled fire-and-forget with `asyncio.create_task`:
the event and the keyword arguments the handlers will receive. -/
structure ScheduledPublish where
  event : String
  kwargs : List (String × PyVal)

/-- `VaultBrain.execute_command(command_id, **kwargs)`. -/
def execute_command (reg : CommandRegistry) (cid : String) (args : PyDict) :
    Except CmdError (PyVal × List ScheduledPublish) :=
  match registryLookup reg cid with
  | Option.none => .error (.commandNotFound cid (reg.map Prod.fst))
  | some entry =>
    match entry.run args with
    | .error e => .error (.commandExecutionError cid e)
    | .ok v => .ok (v,
        [⟨"command:executed",
          [("command_id", .str cid), ("args", .dict args),
           ("result_status", .str "success")]⟩])

/-- C8 (counterexample to the claim as stated): on a successful
execution the fire-and-forget `COMMAND_EXECUTED` payload binds the keys
`command_id`, `args` and `result_status` — there is no `status` key. -/
theorem command_executed_payload_counterexample :
    execute_command
      [("ping", CommandEntry.mk (fun _ => .ok (.str "pong")) (some "core"))]
      "ping" []
      = .ok (.str "pong",
        [⟨"command:executed",
          [("command_id", .str "ping"), ("args", .dict []),
           ("result_status", .str "success")]⟩])
    ∧ "status" ∉ (["command_id", "args", "result_status"] : List String) :=
  ⟨rfl, by decide⟩

/-- C8 (amended): `execute_command` on an unregistered id fails with
`CommandNotFound` carrying the id and the list of known command ids; on
a handler exception it fails with `CommandExecutionError` preserving
the original error; on success it schedules one fire-and-forget
`COMMAND_EXECUTED` event whose payload carries `command_id`, `args`,
and the success status under the key `result_status`. -/
theorem execute_command_spec (reg : CommandRegistry) (cid : String)
    (args : PyDict) :
    (registryLookup reg cid = Option.none →
      execute_command reg cid args
        = .error (.commandNotFound cid (reg.map Prod.fst)))
    ∧ (∀ entry e, registryLookup reg cid = some entry →
        entry.run args = .error e →
        execute_command reg cid args
          = .error (.commandExecutionError cid e))
    ∧ (∀ entry v, registryLookup reg cid = some entry →
        entry.run args = .ok v →
        execute_command reg cid args = .ok (v,
          [⟨"command:executed",
            [("command_id", .str cid), ("args", .dict args),
             ("result_status", .str "success")]⟩])) := by
  refine ⟨?_, ?_, ?_⟩
  · intro h
    simp [execute_command, h]
  · intro entry e hl hr
    simp [execute_command, hl, hr]
  · intro entry v hl hr
    simp [execute_command, hl, hr]

/-- Witness for C8 at concrete registries: a missing id, a raising
handler, and a succeeding handler. -/
theorem execute_command_spec_witness :
    (execute_command [] "nope" []
      = .error (.commandNotFound "nope" []))
    ∧ (execute_command
        [("boom", CommandEntry.mk (fun _ => .error "fail") Option.none)]
        "boom" []
      = .error (.commandExecutionError "boom" "fail"))
    ∧ (execute_command
        [("ok", CommandEntry.mk (fun _ => .ok PyVal.none) Option.none)]
        "ok" []
      = .ok (PyVal.none,
        [⟨"command:executed",
          [("command_id", .str "ok"), ("args", .dict []),
           ("result_status", .str "success")]⟩])) :=
  ⟨(execute_command_spec [] "nope" []).1 rfl,
   (execute_command_spec
      [("boom", CommandEntry.mk (fun _ => .error "fail") Option.none)]
      "boom" []).2.1 _ "fail" rfl rfl,
   (execute_command_spec
      [("ok", CommandEntry.mk (fun _ => .ok PyVal.none) Option.none)]
      "ok" []).2.2 _ PyVal.none rfl rfl⟩

/-! ## Chat pipeline (`pipeline/types.py`, `pipeline/nodes.py`,
`pipeline/default.py`)

`PipelineContext` is the pydantic state threaded through the linear
LangGraph `input → context → prompt → llm → post_process → output` of
`DefaultPipeline._build_graph`.  Every node first publishes its stage
event sequentially on the brain's bus (handing all subscribers the same
mutable context in order — the event-bus theorems above justify
modelling a sequential publish as an in-order fold of context
transformers) and then performs its built-in work.  The telemetry
fields `events_emitted` / `start_time` are read by no modelled path and
are omitted. -/

/-- One history entry `{role, content}` (the LLM node reads
`msg.get("role", "user")` and `msg.get("content", "")`). -/
structure ChatMsg where
  role : String
  content : String
deriving DecidableEq

/-- `PipelineContext.metadata`: the free-form dict, modelled by the
keys the kernel itself reads or writes; an `Option` field is `none`
when the key is absent. -/
structure Metadata where
  chat_id : Option String := Option.none
  category : Option String := Option.none
  model : Option String := Option.none
  system_prompt : Option String := Option.none
  final_system_prompt : Option String := Option.none
  rag_context : Option (List String) := Option.none
  generated_ids : Option (List (String × String)) := Option.none
  usage : Option (List (String × Nat)) := Option.none
  stream : Option Bool := Option.none
deriving DecidableEq

/-- `PipelineContext` (`pipeline/types.py`). -/
structure Ctx where
  message : String
  original_message : String
  history : List ChatMsg := []
  metadata : Metadata := {}
  response : Option String := Option.none
  should_abort : Bool := false
  abort_reason : Option String := Option.none
deriving DecidableEq

/-- The eight stage events of `pipeline/events.py` (that module is not
under `src/`; the eight names are fixed by their uses in
`pipeline/nodes.py`). -/
inductive StageEvent : Type where
  | start
  | input
  | context
  | prompt
  | llm
  | postProcess
  | output
  | endE
deriving DecidableEq

/-- The pipeline-event subscribers installed on the brain's bus, per
stage event, in their dispatch order. -/
abbrev StageBus := StageEvent → List (Ctx → Ctx)

/-- One call handed to the LLM collaborator:
`complete(messages=..., category=..., model=..., stream=...)`.
`model = none` when no `model` argument is passed. -/
structure LLMCall where
  messages : List ChatMsg
  category : String
  model : Option String
  stream : Bool
deriving DecidableEq

/-- Trace of a pipeline run: the stage events published (in order) and
the calls handed to the LLM collaborator. -/
structure PTrace where
  published : List StageEvent := []
  llmCalls : List LLMCall := []
deriving DecidableEq

/-- `await self.brain.publish(event, sequential=True, ctx=state)`:
every subscriber sees and may mutate the shared context, in order. -/
def publishStage (bus : StageBus) (ev : StageEvent) (s : Ctx × PTrace) :
    Ctx × PTrace :=
  ((bus ev).foldl (fun acc f => f acc) s.1,
   { s.2 with published := s.2.published ++ [ev] })

/-- What `LLMService.complete` does with a call: return content or
raise. -/
abbrev LLMBehavior := LLMCall → Except String String

/-- `DefaultPipeline` in its role as the `llm_client` of
`PipelineNodes` (`self.nodes = PipelineNodes(self)`): it always has an
`llm_service` attribute — a property — whose value is `none` while the
`LLMService` singleton is not initialized. -/
structure PipelineClient where
  llm_service : Option LLMBehavior

/-- `DefaultPipeline.complete(messages, category, stream)`: without an
initialized LLM service it returns an `LLMResponse` whose content is an
error marker string; otherwise it delegates to
`LLMService.complete`.  No `model` argument exists on this path. -/
def clientComplete (c : PipelineClient) (call : LLMCall) :
    Except String String :=
  match c.llm_service with
  | Option.none => .ok "[Error] LLM service not initialized"
  | some f => f call

/-- `PipelineNodes._get_placeholder_response`. -/
def demoEcho (c : Ctx) : String := "[Demo Mode] Echo: " ++ c.message

/-- `if state.response:` — Python truthiness of the optional string. -/
def responseTruthy : Option String → Bool
  | some s => s != ""
  | Option.none => false

/-- `PipelineNodes.input_node`: publish START, then INPUT. -/
def input_node (bus : StageBus) (s : Ctx × PTrace) : Ctx × PTrace :=
  publishStage bus .input (publishStage bus .start s)

/-- `PipelineNodes.context_node`: skipped entirely on abort. -/
def context_node (bus : StageBus) (s : Ctx × PTrace) : Ctx × PTrace :=
  if s.1.should_abort then s else publishStage bus .context s

/-- `PipelineNodes.prompt_node`: on a live context, compose
`final_system_prompt` from `metadata.system_prompt` (default
"You are a helpful assistant.") plus up to 5 joined RAG entries, then
publish PROMPT. -/
def prompt_node (bus : StageBus) (s : Ctx × PTrace) : Ctx × PTrace :=
  if s.1.should_abort then s
  else
    let rag := s.1.metadata.rag_context.getD []
    let sysp := s.1.metadata.system_prompt.getD "You are a helpful assistant."
    let final := if rag.isEmpty then sysp
      else sysp ++ "\n\nContext:\n" ++ String.intercalate "\n\n" (rag.take 5)
    publishStage bus .prompt
      ({ s.1 with metadata := { s.1.metadata with
          final_system_prompt := some final } }, s.2)

/-- The message sequence the LLM node builds:
`[system final_system_prompt (default), …history, user message]`. -/
def llmMessages (c : Ctx) : List ChatMsg :=
  ChatMsg.mk "system"
      (c.metadata.final_system_prompt.getD "You are a helpful assistant.")
    :: c.history ++ [ChatMsg.mk "user" c.message]

/-- The response string the LLM node stores: the returned content, or
`"[Error] " + str(e)` when the collaborator raised. -/
def llmResponseString (cl : PipelineClient) (call : LLMCall) : String :=
  match clientComplete cl call with
  | .ok content => content
  | .error e => "[Error] " ++ e

/-- The built-in work of the LLM node after the LLM event: skip when a
subscriber left a truthy response; fall back to the demo echo when the
nodes have no `llm_client` at all (`not self.llm_client or not
hasattr(self.llm_client, "llm_service")` — a `PipelineClient` always
has the attribute); otherwise build the messages, read
`metadata.get("category", "fast")`, and call
`complete(messages=messages, category=category, stream=False)` —
no `model` argument. -/
def llmWork (client : Option PipelineClient) (s : Ctx × PTrace) :
    Ctx × PTrace :=
  if responseTruthy s.1.response then s
  else
    match client with
    | Option.none => ({ s.1 with response := some (demoEcho s.1) }, s.2)
    | some cl =>
      let call : LLMCall :=
        ⟨llmMessages s.1, s.1.metadata.category.getD "fast",
         Option.none, false⟩
      ({ s.1 with response := some (llmResponseString cl call) },
       { s.2 with llmCalls := s.2.llmCalls ++ [call] })

/-- `PipelineNodes.llm_node`: skipped entirely on abort; otherwise
publish LLM, then run the built-in work. -/
def llm_node (bus : StageBus) (client : Option PipelineClient)
    (s : Ctx × PTrace) : Ctx × PTrace :=
  if s.1.should_abort then s else llmWork client (publishStage bus .llm s)

/-- `PipelineNodes.post_process_node`: skipped entirely on abort. -/
def post_process_node (bus : StageBus) (s : Ctx × PTrace) : Ctx × PTrace :=
  if s.1.should_abort then s else publishStage bus .postProcess s

/-- `PipelineNodes.output_node`: publish OUTPUT then END — with no
abort guard, unlike every other non-input node. -/
def output_node (bus : StageBus) (s : Ctx × PTrace) : Ctx × PTrace :=
  publishStage bus .endE (publishStage bus .output s)

/-- The linear graph of `DefaultPipeline._build_graph`:
`input → context → prompt → llm → post_process → output`. -/
def runGraph (bus : StageBus) (client : Option PipelineClient) (c : Ctx) :
    Ctx × PTrace :=
  output_node bus
    (post_process_node bus
      (llm_node bus client
        (prompt_node bus
          (context_node bus
            (input_node bus (c, {}))))))

/-- Example wiring for C1: an INPUT subscriber that aborts the turn and
an OUTPUT persistence subscriber that writes `generated_ids`. -/
def exAbortBus : StageBus := fun ev =>
  match ev with
  | .input =>
    [fun c =>
      { c with
        should_abort := true,
        abort_reason := some "blocked by plugin" }]
  | .output =>
    [fun c =>
      { c with
        metadata := { c.metadata with
          generated_ids := some [("user_message_id", "u1")] } }]
  | _ => []

def exAbortCtx : Ctx :=
  { message := "forbidden", original_message := "forbidden" }

/-- C1 (counterexample to the claim as stated): when the one INPUT
subscriber sets `should_abort`, the LLM collaborator is indeed never
called, but the OUTPUT (and END) events are still published and the
OUTPUT persistence subscriber runs — it writes `generated_ids` — even
though no response was produced (`output_node` has no abort guard). -/
theorem abort_in_input_counterexample :
    (runGraph exAbortBus (some ⟨Option.none⟩) exAbortCtx).2.llmCalls = []
    ∧ (runGraph exAbortBus (some ⟨Option.none⟩) exAbortCtx).2.published
        = [StageEvent.start, StageEvent.input, StageEvent.output,
           StageEvent.endE]
    ∧ (runGraph exAbortBus (some ⟨Option.none⟩) exAbortCtx).1.response
        = Option.none
    ∧ (runGraph exAbortBus (some ⟨Option.none⟩) exAbortCtx).1.metadata.generated_ids
        = some [("user_message_id", "u1")] :=
  ⟨rfl, rfl, rfl, rfl⟩

/-- C1 (amended): if a subscriber of the INPUT stage event sets
`should_abort`, then for that turn the CONTEXT, PROMPT, LLM and
POST_PROCESS stages are skipped — in particular the LLM stage's
built-in work never calls the LLM collaborator and no LLM event is
published — but the OUTPUT and END events are still published
unconditionally, so OUTPUT (persistence) subscribers do run, on the
aborted context, although no response was produced by the kernel. -/
theorem abort_in_input_spec (bus : StageBus) (client : Option PipelineClient)
    (c : Ctx) (h : (input_node bus (c, {})).1.should_abort = true) :
    (runGraph bus client c).2.llmCalls = []
    ∧ (runGraph bus client c).2.published
        = [StageEvent.start, StageEvent.input, StageEvent.output,
           StageEvent.endE]
    ∧ runGraph bus client c = output_node bus (input_node bus (c, {})) := by
  have h3 : runGraph bus client c
      = output_node bus (input_node bus (c, {})) := by
    unfold runGraph context_node prompt_node llm_node post_process_node
    simp only [h, if_true]
  refine ⟨?_, ?_, h3⟩
  · rw [h3]
    rfl
  · rw [h3]
    rfl

/-- Witness for C1 (amended) at the concrete abort wiring. -/
theorem abort_in_input_spec_witness :
    ((input_node exAbortBus (exAbortCtx, {})).1.should_abort = true)
    ∧ ((runGraph exAbortBus (some ⟨Option.none⟩) exAbortCtx).2.llmCalls = []
      ∧ (runGraph exAbortBus (some ⟨Option.none⟩) exAbortCtx).2.published
          = [StageEvent.start, StageEvent.input, StageEvent.output,
             StageEvent.endE]
      ∧ runGraph exAbortBus (some ⟨Option.none⟩) exAbortCtx
          = output_node exAbortBus (input_node exAbortBus (exAbortCtx, {}))) :=
  ⟨rfl, abort_in_input_spec exAbortBus (some ⟨Option.none⟩) exAbortCtx rfl⟩

/-- Example context for C4: both `metadata.model` and
`metadata.category` are present. -/
def exModelCtx : Ctx :=
  { message := "hi", original_message := "hi",
    history := [ChatMsg.mk "user" "earlier", ChatMsg.mk "assistant" "before"],
    metadata := { category := some "thinking",
                  model := some "openai/gpt-4o",
                  final_system_prompt := some "SYS" } }

def exEmptyBus : StageBus := fun _ => []

def exLLMClient : PipelineClient := ⟨some (fun _ => .ok "resp")⟩

/-- C4 (counterexample to the claim as stated): with
`metadata.model = "openai/gpt-4o"` present, the non-streaming built-in
work still calls the collaborator with only the category and no model
argument — the model selected is not `metadata.model`. -/
theorem llm_model_selection_counterexample :
    (llm_node exEmptyBus (some exLLMClient) (exModelCtx, {})).2.llmCalls
      = [⟨[ChatMsg.mk "system" "SYS", ChatMsg.mk "user" "earlier",
           ChatMsg.mk "assistant" "before", ChatMsg.mk "user" "hi"],
          "thinking", Option.none, false⟩]
    ∧ exModelCtx.metadata.model = some "openai/gpt-4o"
    ∧ (Option.none : Option String) ≠ some "openai/gpt-4o" :=
  ⟨rfl, rfl, by decide⟩

/-- C4 (amended): in the LLM stage, when no subscriber has set a
non-empty response, the built-in work builds the message sequence
`[system_prompt, …history, user_message]` and calls the LLM
collaborator in non-streaming mode, selecting by
`metadata.category` if present else the default category `"fast"`;
`metadata.model` is never consulted and no model argument is passed on
this (non-streaming) path. -/
theorem llm_node_builtin_call (bus : StageBus) (cl : PipelineClient)
    (s : Ctx × PTrace) (hab : s.1.should_abort = false)
    (hresp : responseTruthy (publishStage bus .llm s).1.response = false) :
    (llm_node bus (some cl) s).2.llmCalls
      = s.2.llmCalls
        ++ [⟨llmMessages (publishStage bus .llm s).1,
             ((publishStage bus .llm s).1.metadata.category).getD "fast",
             Option.none, false⟩]
    ∧ (llm_node bus (some cl) s).1.response
      = some (llmResponseString cl
          ⟨llmMessages (publishStage bus .llm s).1,
           ((publishStage bus .llm s).1.metadata.category).getD "fast",
           Option.none, false⟩) := by
  unfold llm_node
  simp only [hab, if_false, Bool.false_eq_true]
  unfold llmWork
  simp only [hresp, if_false, Bool.false_eq_true]
  trivial

/-- Witness for C4 (amended) at the concrete context. -/
theorem llm_node_builtin_call_witness :
    (exModelCtx.should_abort = false)
    ∧ (responseTruthy (publishStage exEmptyBus .llm (exModelCtx, {})).1.response
        = false)
    ∧ ((llm_node exEmptyBus (some exLLMClient) (exModelCtx, {})).2.llmCalls
        = ((exModelCtx, ({} : PTrace))).2.llmCalls
          ++ [⟨llmMessages (publishStage exEmptyBus .llm (exModelCtx, {})).1,
               ((publishStage exEmptyBus .llm
                  (exModelCtx, {})).1.metadata.category).getD "fast",
               Option.none, false⟩]
      ∧ (llm_node exEmptyBus (some exLLMClient) (exModelCtx, {})).1.response
        = some (llmResponseString exLLMClient
            ⟨llmMessages (publishStage exEmptyBus .llm (exModelCtx, {})).1,
             ((publishStage exEmptyBus .llm
                (exModelCtx, {})).1.metadata.category).getD "fast",
             Option.none, false⟩)) :=
  ⟨rfl, rfl,
   llm_node_builtin_call exEmptyBus exLLMClient (exModelCtx, {}) rfl rfl⟩

/-! ## `DefaultPipeline.run` and `chat.send` (`vault_brain.py`)

`VaultBrain.chat_send` unwraps its parameters (legacy `p` / `params`
bag), rejects an empty message, assigns the authoritative `chat_id`,
consults `chat.get_metadata` for a per-chat model override and
`chat.get_history` for history (both through the registry, with a bare
`except` swallowing absence or failure), and then either runs the
pipeline (non-streaming) or streams via `_stream_chat_response`. -/

/-- `PipelineConfig` as `DefaultPipeline.run` reads it. -/
structure PipeConfig where
  category : String := "fast"

/-- `initial_state.metadata.update(metadata)`: only keys present in the
argument are overwritten. -/
def Metadata.updateWith (base m : Metadata) : Metadata :=
  { chat_id := (m.chat_id).orElse (fun _ => base.chat_id),
    category := (m.category).orElse (fun _ => base.category),
    model := (m.model).orElse (fun _ => base.model),
    system_prompt := (m.system_prompt).orElse (fun _ => base.system_prompt),
    final_system_prompt :=
      (m.final_system_prompt).orElse (fun _ => base.final_system_prompt),
    rag_context := (m.rag_context).orElse (fun _ => base.rag_context),
    generated_ids := (m.generated_ids).orElse (fun _ => base.generated_ids),
    usage := (m.usage).orElse (fun _ => base.usage),
    stream := (m.stream).orElse (fun _ => base.stream) }

/-- `DefaultPipeline.run(message, history, stream, metadata)`: build the
initial context from `message` and `history or []`, merge the metadata
argument, then force `metadata["stream"] = stream` and
`metadata["category"] = self.config.category`, and invoke the linear
graph. -/
def pipelineRun (bus : StageBus) (client : Option PipelineClient)
    (cfg : PipeConfig) (message : String) (history : Option (List ChatMsg))
    (stream : Bool) (metadata : Metadata) : Ctx × PTrace :=
  let ctx0 : Ctx := { message := message, original_message := message,
                      history := history.getD [] }
  let md1 := Metadata.updateWith ctx0.metadata metadata
  let md2 := { md1 with stream := some stream, category := some cfg.category }
  runGraph bus client { ctx0 with metadata := md2 }

/-- The nested `p` / `params` bag of the legacy calling convention;
a `none` field is an absent key (`p.get(key, current)` keeps the
current value). -/
structure NestedParams where
  message : Option String := Option.none
  history : Option (List ChatMsg) := Option.none
  category : Option String := Option.none
  stream : Option Bool := Option.none
  stream_id : Option String := Option.none
  chat_id : Option String := Option.none

/-- The arguments of `chat_send`, with their source defaults;
`kwargsModel` is `kwargs.get("model")`. -/
structure ChatSendArgs where
  message : String := ""
  history : Option (List ChatMsg) := Option.none
  category : String := "fast"
  stream : Bool := false
  stream_id : Option String := Option.none
  chat_id : Option String := Option.none
  p : Option NestedParams := Option.none
  kwargsModel : Option String := Option.none

/-- The parameter-unwrapping prologue of `chat_send`: when `message` is
falsy and a dict is nested under `p` or `params`, every parameter is
re-read from it. -/
def unwrapArgs (a : ChatSendArgs) : ChatSendArgs :=
  if a.message != "" then a
  else
    match a.p with
    | Option.none => a
    | some q =>
      { a with
        message := q.message.getD a.message,
        history := (q.history).orElse (fun _ => a.history),
        category := q.category.getD a.category,
        stream := q.stream.getD a.stream,
        stream_id := (q.stream_id).orElse (fun _ => a.stream_id),
        chat_id := (q.chat_id).orElse (fun _ => a.chat_id) }

/-- A truthy `chat.get_metadata` result value for the key
`model_override` (`{"model_id": ..., "category": ...}`). -/
structure ModelOverride where
  model_id : Option String := Option.none
  category : Option String := Option.none

/-- The collaborators one `chat.send` turn can observe, fixed up front:
`getMetadataOverride` / `getHistory` are the successful results of the
generic `chat.get_metadata` / `chat.get_history` commands (`none` when
the command is unregistered, fails, or returns a non-success status —
all swallowed by the bare `except`); `streamTokens` are the tokens
`self.pipeline.stream_run(...)` yields and `streamExc` the exception
(if any) that ends the iteration — the pipeline variant may be the
graph one, which is not under `src/`, so the token source is kept
abstract. -/
structure ChatEnv where
  epochSeconds : Nat
  genStreamId : String
  getMetadataOverride : Option ModelOverride := Option.none
  getHistory : Option (List ChatMsg) := Option.none
  bus : StageBus
  client : Option PipelineClient := Option.none
  cfg : PipeConfig := {}
  streamTokens : List String := []
  streamExc : Option String := Option.none

/-- The result dict a chat command returns, modelled by the keys
`chat_send` can bind; an absent key is `none`. -/
structure ChatResult where
  status : String
  error : Option String := Option.none
  chat_id : Option String := Option.none
  response : Option String := Option.none
  model : Option String := Option.none
  usage : Option (List (String × Nat)) := Option.none
  message_ids : Option (List (String × String)) := Option.none
  streaming : Bool := false
  stream_id : Option String := Option.none
deriving DecidableEq

/-- The outward-visible actions of one `chat.send` turn, in order:
`emit_to_frontend` events and the sequential OUTPUT publish of the
streaming path. -/
inductive ChatAction : Type where
  | emitStreamStart (stream_id message : String)
  | emitToken (stream_id token accumulated : String)
  | publishOutput
  | emitStreamEndSuccess (stream_id response : String)
      (chat_id : Option String) (message_ids : List (String × String))
  | emitStreamEndError (stream_id error response : String)
deriving DecidableEq

/-- Trace of one `chat.send` turn: the emitted actions and, when the
non-streaming path ran, the pipeline invocation it made. -/
structure ChatTrace where
  actions : List ChatAction := []
  pipeline : Option (Ctx × PTrace) := Option.none

/-- The token loop of `_stream_chat_response`: accumulate
`full_response += token` and emit a CHAT_TOKEN per token; returns the
actions and the final accumulation. -/
def tokenActions (sid : String) (acc : String) :
    List String → List ChatAction × String
  | [] => ([], acc)
  | t :: rest =>
    let acc2 := acc ++ t
    let r := tokenActions sid acc2 rest
    (ChatAction.emitToken sid t acc2 :: r.1, r.2)

/-- The context `_stream_chat_response` reconstructs after streaming and
hands to the sequential OUTPUT publish: message, history, the
accumulated response, and `metadata.chat_id` when truthy; the OUTPUT
subscribers then run on it in order. -/
def reconstructedCtx (bus : StageBus) (message : String)
    (history : Option (List ChatMsg)) (fullResponse : String)
    (chat_id : Option String) : Ctx :=
  let ctx0 : Ctx := { message := message, original_message := message,
                      history := history.getD [],
                      response := some fullResponse }
  let ctx1 : Ctx :=
    if responseTruthy chat_id then
      { ctx0 with metadata := { ctx0.metadata with chat_id := chat_id } }
    else ctx0
  (bus .output).foldl (fun acc f => f acc) ctx1

/-- `VaultBrain._stream_chat_response`: emit CHAT_STREAM_START, forward
each token as CHAT_TOKEN while accumulating; on normal termination
reconstruct the context, publish OUTPUT sequentially on it, and emit
CHAT_STREAM_END (status success) carrying the full response and the
context's generated ids; when the iteration raises, emit
CHAT_STREAM_END (status error) carrying the exception and the partial
response — without any OUTPUT publish or message_ids. -/
def streamChatResponse (bus : StageBus) (tokens : List String)
    (exc : Option String) (message : String)
    (history : Option (List ChatMsg)) (stream_id : String)
    (chat_id : Option String) : ChatResult × List ChatAction :=
  let tok := tokenActions stream_id "" tokens
  let startAct := ChatAction.emitStreamStart stream_id message
  match exc with
  | some e =>
    ({ status := "error", streaming := true, stream_id := some stream_id,
       error := some e },
     startAct :: tok.1
       ++ [ChatAction.emitStreamEndError stream_id e tok.2])
  | Option.none =>
    let ctx2 := reconstructedCtx bus message history tok.2 chat_id
    let mids := ctx2.metadata.generated_ids.getD []
    ({ status := "success", streaming := true, stream_id := some stream_id,
       chat_id := chat_id, response := some tok.2,
       model := some "stream-model", usage := some [],
       message_ids := some mids },
     startAct :: tok.1
       ++ [ChatAction.publishOutput,
           ChatAction.emitStreamEndSuccess stream_id tok.2 chat_id mids])

/-- `VaultBrain.chat_send`. -/
def chatSend (a0 : ChatSendArgs) (env : ChatEnv) : ChatResult × ChatTrace :=
  let a := unwrapArgs a0
  if a.message == "" then
    ({ status := "error", error := some "message is required" }, {})
  else
    let chat_id : String :=
      if responseTruthy a.chat_id then a.chat_id.getD ""
      else "chat_" ++ toString env.epochSeconds
    -- Model/category resolution (explicit model wins, then the per-chat
    -- override).  The pair only parameterizes the streaming token
    -- source `stream_run`, which is abstracted by `env.streamTokens`,
    -- so nothing below consumes it.
    let _mc : Option String × String :=
      if responseTruthy a.kwargsModel then (a.kwargsModel, a.category)
      else
        match env.getMetadataOverride with
        | Option.none => (a.kwargsModel, a.category)
        | some ov =>
          if responseTruthy ov.model_id then (ov.model_id, a.category)
          else if responseTruthy ov.category then
            (a.kwargsModel, ov.category.getD a.category)
          else (a.kwargsModel, a.category)
    let history : Option (List ChatMsg) :=
      match env.getHistory with
      | some hl => some hl
      | Option.none => a.history
    let stream_id : Option String :=
      if a.stream && !(responseTruthy a.stream_id) then some env.genStreamId
      else a.stream_id
    if a.stream then
      let r := streamChatResponse env.bus env.streamTokens env.streamExc
        a.message history (stream_id.getD "") (some chat_id)
      (r.1, { actions := r.2, pipeline := Option.none })
    else
      let pr := pipelineRun env.bus env.client env.cfg a.message history
        false { chat_id := some chat_id }
      ({ status := "success", chat_id := some chat_id,
         response := pr.1.response,
         model := some (pr.1.metadata.model.getD "unknown"),
         usage := some (pr.1.metadata.usage.getD []),
         message_ids := some (pr.1.metadata.generated_ids.getD []) },
       { actions := [], pipeline := some pr })

/-- C10: `chat.send` with an empty or missing message — after also
checking the nested `p` / `params` bag — returns
`{"status": "error", "error": "message is required"}` and does nothing
else: it runs no pipeline, assigns no `chat_id` or `stream_id`, and
emits no streaming event. -/
theorem chat_send_requires_message (a : ChatSendArgs) (env : ChatEnv)
    (h : (unwrapArgs a).message = "") :
    chatSend a env
      = ({ status := "error", error := some "message is required" },
         { actions := [], pipeline := Option.none }) := by
  unfold chatSend
  simp [h]

/-- Witness for C10: all-default arguments (no `message`, no nested
bag). -/
theorem chat_send_requires_message_witness :
    ((unwrapArgs {}).message = "")
    ∧ chatSend {}
        { epochSeconds := 0, genStreamId := "stream_0", bus := fun _ => [] }
      = ({ status := "error", error := some "message is required" },
         { actions := [], pipeline := Option.none }) :=
  ⟨rfl,
   chat_send_requires_message {}
     { epochSeconds := 0, genStreamId := "stream_0", bus := fun _ => [] }
     rfl⟩

/-- The environment of the boundary scenario of C3: no plugins active
(no subscribers, no `chat.get_history` / `chat.get_metadata`) and no
LLM collaborator configured (the `LLMService` singleton is not
initialized, so `DefaultPipeline.llm_service` is `none`). -/
def envDemo (epoch : Nat) : ChatEnv :=
  { epochSeconds := epoch, genStreamId := "stream_0",
    bus := fun _ => [], client := some ⟨Option.none⟩ }

/-- C3 (counterexample to the claim as stated): in that scenario
`chat.send "hi"` responds with the error-marker fallback, not the demo
echo: `PipelineNodes.llm_client` is the `DefaultPipeline` itself, which
always has an `llm_service` attribute (a property), so the placeholder
branch of `llm_node` is unreachable through the default wiring and
`DefaultPipeline.complete` returns the `LLMResponse` content
"[Error] LLM service not initialized". -/
theorem demo_echo_counterexample :
    (chatSend { message := "hi" } (envDemo 1700000000)).1.response
      = some "[Error] LLM service not initialized"
    ∧ (chatSend { message := "hi" } (envDemo 1700000000)).1.response
      ≠ some "[Demo Mode] Echo: hi" := by
  have h : (chatSend { message := "hi" } (envDemo 1700000000)).1.response
      = some "[Error] LLM service not initialized" := rfl
  exact ⟨h, by rw [h]; decide⟩

/-- C3 (amended): with no plugins active and no LLM collaborator
configured, `chat.send "hi"` returns status `"success"`, a `chat_id` of
the form `"chat_<epoch seconds>"`, empty usage and empty message_ids —
but the response is the fallback string
"[Error] LLM service not initialized", not the demo echo (the echo
"[Demo Mode] Echo: hi" is produced only when the pipeline nodes carry
no `llm_client` at all, which the default wiring never arranges). -/
theorem chat_send_no_llm_spec (epoch : Nat) :
    (chatSend { message := "hi" } (envDemo epoch)).1
      = { status := "success",
          chat_id := some ("chat_" ++ toString epoch),
          response := some "[Error] LLM service not initialized",
          model := some "unknown", usage := some [],
          message_ids := some [] }
    ∧ (chatSend { message := "hi" } (envDemo epoch)).2.actions = [] :=
  ⟨rfl, rfl⟩

/-! ## The streaming invariants (C2) -/

/-- The concatenation, in emission order, of a token list. -/
def concatTokens : List String → String
  | [] => ""
  | t :: rest => t ++ concatTokens rest

/-- The `token` fields of the CHAT_TOKEN events of one stream id, in
emission order. -/
def chatTokensOf (sid : String) : List ChatAction → List String
  | [] => []
  | ChatAction.emitToken s t _ :: rest =>
    if s = sid then t :: chatTokensOf sid rest else chatTokensOf sid rest
  | _ :: rest => chatTokensOf sid rest

/-- The `response` fields of the CHAT_STREAM_END events of one stream
id. -/
def streamEndResponses (sid : String) : List ChatAction → List String
  | [] => []
  | ChatAction.emitStreamEndSuccess s r _ _ :: rest =>
    if s = sid then r :: streamEndResponses sid rest
    else streamEndResponses sid rest
  | ChatAction.emitStreamEndError s _ r :: rest =>
    if s = sid then r :: streamEndResponses sid rest
    else streamEndResponses sid rest
  | _ :: rest => streamEndResponses sid rest

theorem tokenActions_acc (sid : String) (acc : String)
    (tokens : List String) :
    (tokenActions sid acc tokens).2 = acc ++ concatTokens tokens := by
  induction tokens generalizing acc with
  | nil =>
    show acc = acc ++ ""
    exact (String.append_empty acc).symm
  | cons t rest ih =>
    show (tokenActions sid (acc ++ t) rest).2 = _
    rw [ih (acc ++ t)]
    show acc ++ t ++ concatTokens rest = acc ++ (t ++ concatTokens rest)
    exact String.append_assoc acc t (concatTokens rest)

theorem chatTokensOf_tokenActions (sid : String) (acc : String)
    (tokens : List String) :
    chatTokensOf sid (tokenActions sid acc tokens).1 = tokens := by
  induction tokens generalizing acc with
  | nil => rfl
  | cons t rest ih =>
    show chatTokensOf sid
      (ChatAction.emitToken sid t (acc ++ t) :: (tokenActions sid (acc ++ t) rest).1)
      = t :: rest
    unfold chatTokensOf
    rw [if_pos rfl, ih (acc ++ t)]

/-- Every action the token loop emits is a CHAT_TOKEN. -/
theorem tokenActions_mem (sid : String) (acc : String)
    (tokens : List String) :
    ∀ a ∈ (tokenActions sid acc tokens).1,
      ∃ s t u, a = ChatAction.emitToken s t u := by
  induction tokens generalizing acc with
  | nil => intro a ha; exact absurd ha (by simp [tokenActions])
  | cons t rest ih =>
    intro a ha
    rcases List.mem_cons.mp ha with rfl | ha2
    · exact ⟨sid, t, acc ++ t, rfl⟩
    · exact ih (acc ++ t) a ha2

theorem streamEndResponses_tokenActions (sid : String) (acc : String)
    (tokens : List String) :
    streamEndResponses sid (tokenActions sid acc tokens).1 = [] := by
  induction tokens generalizing acc with
  | nil => rfl
  | cons t rest ih =>
    show streamEndResponses sid
      (ChatAction.emitToken sid t (acc ++ t) :: (tokenActions sid (acc ++ t) rest).1) = []
    unfold streamEndResponses
    exact ih (acc ++ t)

theorem chatTokensOf_cons_token (sid s t u : String)
    (l : List ChatAction) :
    chatTokensOf sid (ChatAction.emitToken s t u :: l)
      = if s = sid then t :: chatTokensOf sid l else chatTokensOf sid l :=
  rfl

theorem chatTokensOf_cons_token_self (sid t u : String)
    (l : List ChatAction) :
    chatTokensOf sid (ChatAction.emitToken sid t u :: l)
      = t :: chatTokensOf sid l := by
  rw [chatTokensOf_cons_token, if_pos rfl]

theorem chatTokensOf_cons_start (sid s m : String) (l : List ChatAction) :
    chatTokensOf sid (ChatAction.emitStreamStart s m :: l)
      = chatTokensOf sid l := rfl

theorem chatTokensOf_cons_output (sid : String) (l : List ChatAction) :
    chatTokensOf sid (ChatAction.publishOutput :: l)
      = chatTokensOf sid l := rfl

theorem chatTokensOf_cons_endSuccess (sid s r : String)
    (c : Option String) (m : List (String × String)) (l : List ChatAction) :
    chatTokensOf sid (ChatAction.emitStreamEndSuccess s r c m :: l)
      = chatTokensOf sid l := rfl

theorem chatTokensOf_cons_endError (sid s e r : String)
    (l : List ChatAction) :
    chatTokensOf sid (ChatAction.emitStreamEndError s e r :: l)
      = chatTokensOf sid l := rfl

theorem streamEndResponses_cons_start (sid s m : String)
    (l : List ChatAction) :
    streamEndResponses sid (ChatAction.emitStreamStart s m :: l)
      = streamEndResponses sid l := rfl

theorem streamEndResponses_cons_token (sid s t u : String)
    (l : List ChatAction) :
    streamEndResponses sid (ChatAction.emitToken s t u :: l)
      = streamEndResponses sid l := rfl

theorem streamEndResponses_cons_output (sid : String)
    (l : List ChatAction) :
    streamEndResponses sid (ChatAction.publishOutput :: l)
      = streamEndResponses sid l := rfl

theorem streamEndResponses_cons_endSuccess (sid s r : String)
    (c : Option String) (m : List (String × String)) (l : List ChatAction) :
    streamEndResponses sid (ChatAction.emitStreamEndSuccess s r c m :: l)
      = if s = sid then r :: streamEndResponses sid l
        else streamEndResponses sid l :=
  rfl

theorem streamEndResponses_cons_endError (sid s e r : String)
    (l : List ChatAction) :
    streamEndResponses sid (ChatAction.emitStreamEndError s e r :: l)
      = if s = sid then r :: streamEndResponses sid l
        else streamEndResponses sid l :=
  rfl

theorem streamEndResponses_cons_endSuccess_self (sid r : String)
    (c : Option String) (m : List (String × String)) (l : List ChatAction) :
    streamEndResponses sid (ChatAction.emitStreamEndSuccess sid r c m :: l)
      = r :: streamEndResponses sid l := by
  rw [streamEndResponses_cons_endSuccess, if_pos rfl]

theorem streamEndResponses_cons_endError_self (sid e r : String)
    (l : List ChatAction) :
    streamEndResponses sid (ChatAction.emitStreamEndError sid e r :: l)
      = r :: streamEndResponses sid l := by
  rw [streamEndResponses_cons_endError, if_pos rfl]

theorem chatTokensOf_append (sid : String) (l1 l2 : List ChatAction) :
    chatTokensOf sid (l1 ++ l2)
      = chatTokensOf sid l1 ++ chatTokensOf sid l2 := by
  induction l1 with
  | nil => rfl
  | cons a rest ih =>
    rw [List.cons_append]
    cases a with
    | emitToken s t u =>
      rw [chatTokensOf_cons_token, chatTokensOf_cons_token]
      by_cases h : s = sid
      · rw [if_pos h, if_pos h, ih, List.cons_append]
      · rw [if_neg h, if_neg h, ih]
    | emitStreamStart s m =>
      rw [chatTokensOf_cons_start, chatTokensOf_cons_start, ih]
    | publishOutput =>
      rw [chatTokensOf_cons_output, chatTokensOf_cons_output, ih]
    | emitStreamEndSuccess s r c m =>
      rw [chatTokensOf_cons_endSuccess, chatTokensOf_cons_endSuccess, ih]
    | emitStreamEndError s e r =>
      rw [chatTokensOf_cons_endError, chatTokensOf_cons_endError, ih]

theorem streamEndResponses_append (sid : String) (l1 l2 : List ChatAction) :
    streamEndResponses sid (l1 ++ l2)
      = streamEndResponses sid l1 ++ streamEndResponses sid l2 := by
  induction l1 with
  | nil => rfl
  | cons a rest ih =>
    rw [List.cons_append]
    cases a with
    | emitToken s t u =>
      rw [streamEndResponses_cons_token, streamEndResponses_cons_token, ih]
    | emitStreamStart s m =>
      rw [streamEndResponses_cons_start, streamEndResponses_cons_start, ih]
    | publishOutput =>
      rw [streamEndResponses_cons_output, streamEndResponses_cons_output, ih]
    | emitStreamEndSuccess s r c m =>
      rw [streamEndResponses_cons_endSuccess, streamEndResponses_cons_endSuccess]
      by_cases h : s = sid
      · rw [if_pos h, if_pos h, ih, List.cons_append]
      · rw [if_neg h, if_neg h, ih]
    | emitStreamEndError s e r =>
      rw [streamEndResponses_cons_endError, streamEndResponses_cons_endError]
      by_cases h : s = sid
      · rw [if_pos h, if_pos h, ih, List.cons_append]
      · rw [if_neg h, if_neg h, ih]

/-- C2 (counterexample to the claim as stated): a streaming turn whose
token source raises after one token still satisfies the concatenation
invariant, but its terminal CHAT_STREAM_END (status error) is emitted
with no preceding OUTPUT publish and without message_ids — the error
path of `_stream_chat_response` skips the context reconstruction and
the OUTPUT publish entirely. -/
theorem stream_output_counterexample :
    (streamChatResponse (fun _ => []) ["a"] (some "boom") "hello"
        Option.none "s1" (some "chat_1")).2
      = [ChatAction.emitStreamStart "s1" "hello",
         ChatAction.emitToken "s1" "a" "a",
         ChatAction.emitStreamEndError "s1" "boom" "a"]
    ∧ ChatAction.publishOutput
        ∉ [ChatAction.emitStreamStart "s1" "hello",
           ChatAction.emitToken "s1" "a" "a",
           ChatAction.emitStreamEndError "s1" "boom" "a"]
    ∧ (streamChatResponse (fun _ => []) ["a"] (some "boom") "hello"
        Option.none "s1" (some "chat_1")).1.message_ids = Option.none :=
  ⟨rfl, by decide, rfl⟩

/-- C2 (amended): for every streaming turn, the concatenation (in
emission order) of the CHAT_TOKEN token fields of the stream equals the
response field of the single terminal CHAT_STREAM_END event for that
stream id.  When the token source terminates normally, the OUTPUT event
is additionally published sequentially on the reconstructed context
before CHAT_STREAM_END is emitted, and the end event's message_ids
equals that context's metadata.generated_ids; when the token source
raises, CHAT_STREAM_END carries status error with the exception and the
partial response, with no OUTPUT publish and no message_ids. -/
theorem stream_chat_response_spec (bus : StageBus) (tokens : List String)
    (exc : Option String) (message : String)
    (history : Option (List ChatMsg)) (sid : String)
    (chat_id : Option String) :
    chatTokensOf sid
        (streamChatResponse bus tokens exc message history sid chat_id).2
      = tokens
    ∧ streamEndResponses sid
        (streamChatResponse bus tokens exc message history sid chat_id).2
      = [concatTokens tokens]
    ∧ (exc = Option.none →
        (streamChatResponse bus tokens exc message history sid chat_id).2
          = ChatAction.emitStreamStart sid message
              :: (tokenActions sid "" tokens).1
            ++ [ChatAction.publishOutput,
                ChatAction.emitStreamEndSuccess sid (concatTokens tokens)
                  chat_id
                  ((reconstructedCtx bus message history
                      (concatTokens tokens) chat_id).metadata.generated_ids.getD
                    [])]
        ∧ (streamChatResponse bus tokens exc message history sid
            chat_id).1.message_ids
          = some ((reconstructedCtx bus message history
              (concatTokens tokens) chat_id).metadata.generated_ids.getD []))
    ∧ (∀ e, exc = some e →
        (streamChatResponse bus tokens exc message history sid chat_id).2
          = ChatAction.emitStreamStart sid message
              :: (tokenActions sid "" tokens).1
            ++ [ChatAction.emitStreamEndError sid e (concatTokens tokens)]
        ∧ ChatAction.publishOutput
            ∉ (streamChatResponse bus tokens exc message history sid
                chat_id).2
        ∧ (streamChatResponse bus tokens exc message history sid chat_id).1
          = { status := "error", streaming := true, stream_id := some sid,
              error := some e }) := by
  have hacc : (tokenActions sid "" tokens).2 = concatTokens tokens := by
    rw [tokenActions_acc, String.empty_append]
  cases exc with
  | none =>
    refine ⟨?_, ?_, ?_, ?_⟩
    · show chatTokensOf sid (ChatAction.emitStreamStart sid message
        :: (tokenActions sid "" tokens).1 ++ _) = tokens
      rw [chatTokensOf_append, chatTokensOf_cons_start,
          chatTokensOf_tokenActions]
      simp [chatTokensOf]
    · show streamEndResponses sid (ChatAction.emitStreamStart sid message
        :: (tokenActions sid "" tokens).1 ++ _) = _
      rw [streamEndResponses_append, streamEndResponses_cons_start,
          streamEndResponses_tokenActions, List.nil_append,
          streamEndResponses_cons_output,
          streamEndResponses_cons_endSuccess_self, hacc]
      rfl
    · intro _
      constructor
      · show ChatAction.emitStreamStart sid message
          :: (tokenActions sid "" tokens).1
            ++ [ChatAction.publishOutput,
                ChatAction.emitStreamEndSuccess sid
                  (tokenActions sid "" tokens).2 chat_id
                  ((reconstructedCtx bus message history
                      (tokenActions sid "" tokens).2
                      chat_id).metadata.generated_ids.getD [])] = _
        rw [hacc]
      · show some ((reconstructedCtx bus message history
            (tokenActions sid "" tokens).2
            chat_id).metadata.generated_ids.getD []) = _
        rw [hacc]
    · intro e he
      exact absurd he (by simp)
  | some e0 =>
    refine ⟨?_, ?_, ?_, ?_⟩
    · show chatTokensOf sid (ChatAction.emitStreamStart sid message
        :: (tokenActions sid "" tokens).1 ++ _) = tokens
      rw [chatTokensOf_append, chatTokensOf_cons_start,
          chatTokensOf_tokenActions]
      simp [chatTokensOf]
    · show streamEndResponses sid (ChatAction.emitStreamStart sid message
        :: (tokenActions sid "" tokens).1 ++ _) = _
      rw [streamEndResponses_append, streamEndResponses_cons_start,
          streamEndResponses_tokenActions, List.nil_append,
          streamEndResponses_cons_endError_self, hacc]
      rfl
    · intro h
      exact absurd h (by simp)
    · intro e he
      have he2 : e0 = e := by injection he
      subst he2
      refine ⟨?_, ?_, rfl⟩
      · show ChatAction.emitStreamStart sid message
          :: (tokenActions sid "" tokens).1
            ++ [ChatAction.emitStreamEndError sid e0
                  (tokenActions sid "" tokens).2] = _
        rw [hacc]
      · intro hmem
        rcases List.mem_cons.mp hmem with h1 | h2
        · exact absurd h1 (by simp)
        rcases List.mem_append.mp h2 with h3 | h4
        · obtain ⟨s, t, u, heq⟩ := tokenActions_mem sid "" tokens _ h3
          exact absurd heq (by simp)
        · exact absurd h4 (by simp)

/-- Example OUTPUT persistence subscriber for the C2 witness. -/
def exStreamBus : StageBus := fun ev =>
  match ev with
  | .output =>
    [fun c =>
      { c with
        metadata := { c.metadata with
          generated_ids := some [("user_message_id", "u1"),
                                 ("assistant_message_id", "a1")] } }]
  | _ => []

/-- Witness for C2 (amended): a two-token stream that terminates
normally under a persistence OUTPUT subscriber, and a one-token stream
that raises. -/
theorem stream_chat_response_spec_witness :
    ((Option.none : Option String) = Option.none)
    ∧ ((streamChatResponse exStreamBus ["Hel", "lo"] Option.none "hello"
          Option.none "s7" (some "chat_7")).2
        = ChatAction.emitStreamStart "s7" "hello"
            :: (tokenActions "s7" "" ["Hel", "lo"]).1
          ++ [ChatAction.publishOutput,
              ChatAction.emitStreamEndSuccess "s7"
                (concatTokens ["Hel", "lo"]) (some "chat_7")
                ((reconstructedCtx exStreamBus "hello" Option.none
                    (concatTokens ["Hel", "lo"])
                    (some "chat_7")).metadata.generated_ids.getD [])]
      ∧ (streamChatResponse exStreamBus ["Hel", "lo"] Option.none "hello"
          Option.none "s7" (some "chat_7")).1.message_ids
        = some ((reconstructedCtx exStreamBus "hello" Option.none
            (concatTokens ["Hel", "lo"])
            (some "chat_7")).metadata.generated_ids.getD []))
    ∧ ((some "boom" : Option String) = some "boom")
    ∧ ((streamChatResponse (fun _ => []) ["a"] (some "boom") "hello"
          Option.none "s1" (some "chat_1")).2
        = ChatAction.emitStreamStart "s1" "hello"
            :: (tokenActions "s1" "" ["a"]).1
          ++ [ChatAction.emitStreamEndError "s1" "boom" (concatTokens ["a"])]
      ∧ ChatAction.publishOutput
          ∉ (streamChatResponse (fun _ => []) ["a"] (some "boom") "hello"
              Option.none "s1" (some "chat_1")).2
      ∧ (streamChatResponse (fun _ => []) ["a"] (some "boom") "hello"
          Option.none "s1" (some "chat_1")).1
        = { status := "error", streaming := true, stream_id := some "s1",
            error := some "boom" }) :=
  ⟨rfl,
   (stream_chat_response_spec exStreamBus ["Hel", "lo"] Option.none "hello"
      Option.none "s7" (some "chat_7")).2.2.1 rfl,
   rfl,
   (stream_chat_response_spec (fun _ => []) ["a"] (some "boom") "hello"
      Option.none "s1" (some "chat_1")).2.2.2 "boom" rfl⟩

end Tailor
